import Mathlib

/-!
# ConnectOnion — verification of the spec against the code

The repository's visible sources are `examples/quick_start.py`, `setup.py`
and `tests/conftest.py`.  The core package (`connectonion`: the execution
loop, the trace recorder / History, the tool adapter and the model gateway)
is not among the visible sources, so those components are modelled from the
specification (each such definition's doc comment starts with
`Modelled from the spec:`).  The pure helper functions that are visible
(`calculate` in `quick_start.py`, the requirements parsing in `setup.py`)
are embedded directly from the Python source.

Time is modelled abstractly: the clock is a natural number that advances by
one tick at every Model Gateway call, so `duration_seconds` counts gateway
calls made during the task.
-/

namespace ConnectOnion

/-- Status of one tool invocation, per spec §3: `status ∈ {success, error}`. -/
inductive Status where
  | success
  | error
deriving DecidableEq, Repr

/-- Modelled from the spec: §3 ToolCallRequest — `call_id` (opaque,
backend-assigned), `name`, `arguments` (mapping of parameter name → value,
values abstracted as strings). -/
structure ToolCallRequest where
  call_id : String
  name : String
  arguments : List (String × String)
deriving DecidableEq, Repr

/-- Modelled from the spec: §3 ToolCallRecord — `name`, `arguments`,
`call_id`, `result`, `status`.  Immutable once appended to a task record. -/
structure ToolCallRecord where
  name : String
  arguments : List (String × String)
  call_id : String
  result : String
  status : Status
deriving DecidableEq, Repr

/-- Modelled from the spec: §3 TaskRecord — `timestamp` (task start, an
abstract clock value), `task`, `tool_calls` (insertion order = execution
order), `result`, `duration_seconds` (end − start, in abstract ticks). -/
structure TaskRecord where
  timestamp : Nat
  task : String
  tool_calls : List ToolCallRecord
  result : String
  duration_seconds : Nat
deriving DecidableEq, Repr

/-- Outcome of a Python-style call: either a value or a raised exception
carrying its message. -/
inductive PyResult (α : Type) where
  | ok (v : α)
  | exc (msg : String)
deriving DecidableEq, Repr

/-- Modelled from the spec: §4.1 Tool Adapter — a registered tool with its
name, the names of its required parameters, and the underlying callable
(which may raise; raising is abstracted as `PyResult.exc`). -/
structure ToolDef where
  name : String
  required : List String
  fn : List (String × String) → PyResult String

/-- Modelled from the spec: §4.1 `invoke(arguments)` — fails when a required
argument is missing or the underlying callable raises; in all cases the
error is captured, not propagated. -/
def ToolDef.invoke (t : ToolDef) (args : List (String × String)) :
    Except String String :=
  match t.required.find? (fun p => (args.find? (fun a => a.1 == p)).isNone) with
  | some p => .error ("Missing required argument: " ++ p)
  | none =>
    match t.fn args with
    | .ok v => .ok v
    | .exc m => .error m

/-- Modelled from the spec: §4.2 — the normalized Model Gateway outcome:
either a final answer, an ordered list of tool requests, or a single
`ModelUnavailableError` carrying a description. -/
inductive GatewayOutcome where
  | final (content : String)
  | toolRequests (requests : List ToolCallRequest)
  | unavailable (msg : String)

/-- Modelled from the spec: §6 — a role-tagged conversation message. -/
inductive Message where
  | system (text : String)
  | user (text : String)
  | assistantToolCalls (requests : List ToolCallRequest)
  | toolResult (call_id : String) (content : String)
deriving DecidableEq, Repr

/-- Modelled from the spec: §4.3 — the loop's configuration: the Model
Gateway (a function of the conversation), the registered tools, the system
prompt and the configured round bound. -/
structure LoopConfig where
  gw : List Message → GatewayOutcome
  tools : List ToolDef
  systemPrompt : String
  maxRounds : Nat

/-- Modelled from the spec: §4.3 — the loop's control state:
`AwaitingModel`, `DispatchingTools`, `Done`, `Failed`. -/
inductive Phase where
  | awaitingModel (conv : List Message)
  | dispatching (requests : List ToolCallRequest) (conv : List Message)
  | done (result : String)
  | failed (result : String)
deriving DecidableEq

/-- Modelled from the spec: §4.3 — the loop state: current phase, the
accumulated `tool_calls`, the log of tool requests processed so far, the
number of completed AwaitingModel→DispatchingTools cycles, and the clock. -/
structure LState where
  phase : Phase
  calls : List ToolCallRecord
  log : List ToolCallRequest
  round : Nat
  clock : Nat

/-- Modelled from the spec: §4.3 step 3 — dispatch one ToolCallRequest
through the Tool Adapter, building a ToolCallRecord with status `success`
(result = returned value) or `error` (result = error message).  An unknown
tool name is a `ToolInvocationError`, captured the same way. -/
def invokeTool (tools : List ToolDef) (req : ToolCallRequest) : ToolCallRecord :=
  match tools.find? (fun t => t.name == req.name) with
  | none =>
    { name := req.name, arguments := req.arguments, call_id := req.call_id,
      result := "Unknown tool: " ++ req.name, status := .error }
  | some t =>
    match t.invoke req.arguments with
    | .ok v =>
      { name := req.name, arguments := req.arguments, call_id := req.call_id,
        result := v, status := .success }
    | .error e =>
      { name := req.name, arguments := req.arguments, call_id := req.call_id,
        result := e, status := .error }

/-- The descriptive result used when the round bound is exceeded (§4.3
step 4). -/
def maxIterationsMsg : String := "max iterations exceeded"

/-- Modelled from the spec: §4.3 — one transition of the execution loop.
`AwaitingModel`: if the round bound is reached, transition to `Failed`
with a descriptive result; otherwise call the Model Gateway (one clock
tick) and transition to `Done`, `Failed` or `DispatchingTools`.
`DispatchingTools`: invoke every request in the order returned by the
model, append the records to `tool_calls` in that order, append a tagged
tool-result entry per call to the conversation, and return to
`AwaitingModel`.  `Done` and `Failed` are terminal. -/
def step (cfg : LoopConfig) (s : LState) : LState :=
  match s.phase with
  | .awaitingModel conv =>
    if cfg.maxRounds ≤ s.round then
      { s with phase := .failed maxIterationsMsg }
    else
      match cfg.gw conv with
      | .unavailable msg =>
        { s with phase := .failed msg, clock := s.clock + 1 }
      | .final content =>
        { s with phase := .done content, clock := s.clock + 1 }
      | .toolRequests reqs =>
        { s with phase := .dispatching reqs conv, round := s.round + 1,
                 clock := s.clock + 1 }
  | .dispatching reqs conv =>
    let recs := reqs.map (invokeTool cfg.tools)
    { s with
      phase := .awaitingModel
        (conv ++ Message.assistantToolCalls reqs ::
          recs.map (fun r => Message.toolResult r.call_id r.result)),
      calls := s.calls ++ recs,
      log := s.log ++ reqs }
  | .done _ => s
  | .failed _ => s

/-- Modelled from the spec: §4.3 step 1 — initial conversation = [system
prompt, task]. -/
def initConv (cfg : LoopConfig) (task : String) : List Message :=
  [Message.system cfg.systemPrompt, Message.user task]

/-- Modelled from the spec: §4.3 step 1 — Start: empty `tool_calls`,
enter `AwaitingModel`. -/
def initState (cfg : LoopConfig) (task : String) (clock0 : Nat) : LState :=
  { phase := .awaitingModel (initConv cfg task), calls := [], log := [],
    round := 0, clock := clock0 }

/-- Iterate the loop transition `n` times. -/
def runSteps (cfg : LoopConfig) : Nat → LState → LState
  | 0, s => s
  | n + 1, s => runSteps cfg n (step cfg s)

/-- A state is terminal when it is `Done` or `Failed`. -/
def LState.isTerminal (s : LState) : Bool :=
  match s.phase with
  | .done _ => true
  | .failed _ => true
  | _ => false

/-- The loop's final state: enough steps are taken that every run has
terminated (proved below). -/
def runState (cfg : LoopConfig) (task : String) (clock0 : Nat) : LState :=
  runSteps cfg (2 * cfg.maxRounds + 1) (initState cfg task clock0)

/-- The textual result carried by a terminal phase. -/
def Phase.resultOf : Phase → String
  | .done r => r
  | .failed r => r
  | _ => ""

/-- Modelled from the spec: §4.3 step 5 — build the TaskRecord from
`timestamp`, `task`, `tool_calls`, `result`, `duration_seconds`. -/
def runRecord (cfg : LoopConfig) (task : String) (clock0 : Nat) : TaskRecord :=
  let s := runState cfg task clock0
  { timestamp := clock0, task := task, tool_calls := s.calls,
    result := s.phase.resultOf, duration_seconds := s.clock - clock0 }

/-- Modelled from the spec: §6 trace storage layout — the durable
serialization format: JSON-like values (strings, numbers, arrays,
string-keyed mappings). -/
inductive Json where
  | str (s : String)
  | num (n : Nat)
  | arr (xs : List Json)
  | obj (fields : List (String × Json))

/-- The keys of a serialized mapping, in order. -/
def Json.keys : Json → List String
  | .obj fields => fields.map (fun p => p.1)
  | _ => []

/-- Look a field up by key in a serialized mapping. -/
def Json.getField (j : Json) (k : String) : Option Json :=
  match j with
  | .obj fields => (fields.find? (fun p => p.1 == k)).map (fun p => p.2)
  | _ => none

/-- Serialize a `status` value per the storage contract. -/
def Status.toStr : Status → String
  | .success => "success"
  | .error => "error"

/-- Parse a `status` value back from its storage form. -/
def Status.ofStr : String → Option Status
  | "success" => some .success
  | "error" => some .error
  | _ => none

/-- Serialize an arguments mapping. -/
def serializeArgs (args : List (String × String)) : Json :=
  .obj (args.map (fun p => (p.1, Json.str p.2)))

/-- Parse every element of a list, failing if any element fails. -/
def traverseOpt (f : α → Option β) : List α → Option (List β)
  | [] => some []
  | a :: t => do
    let b ← f a
    let bs ← traverseOpt f t
    pure (b :: bs)

/-- Parse an arguments mapping back from its storage form. -/
def parseArgs : Json → Option (List (String × String))
  | .obj fields =>
    traverseOpt (fun p =>
      match p.2 with
      | .str s => some (p.1, s)
      | _ => none) fields
  | _ => none

/-- Modelled from the spec: §6 — each tool-call entry serializes as
`{name, arguments, call_id, result, status}`. -/
def serializeToolCall (c : ToolCallRecord) : Json :=
  .obj [("name", .str c.name), ("arguments", serializeArgs c.arguments),
        ("call_id", .str c.call_id), ("result", .str c.result),
        ("status", .str c.status.toStr)]

/-- Parse a tool-call entry back from its storage form. -/
def parseToolCall (j : Json) : Option ToolCallRecord := do
  let .str name ← j.getField "name" | none
  let argsJson ← j.getField "arguments"
  let arguments ← parseArgs argsJson
  let .str call_id ← j.getField "call_id" | none
  let .str result ← j.getField "result" | none
  let .str statusStr ← j.getField "status" | none
  let status ← Status.ofStr statusStr
  pure { name := name, arguments := arguments, call_id := call_id,
         result := result, status := status }

/-- Modelled from the spec: §6 — each TaskRecord serializes as a mapping
with keys `timestamp, task, tool_calls, result, duration_seconds`. -/
def serializeTask (r : TaskRecord) : Json :=
  .obj [("timestamp", .num r.timestamp), ("task", .str r.task),
        ("tool_calls", .arr (r.tool_calls.map serializeToolCall)),
        ("result", .str r.result), ("duration_seconds", .num r.duration_seconds)]

/-- Parse a TaskRecord back from its storage form. -/
def parseTask (j : Json) : Option TaskRecord := do
  let .num timestamp ← j.getField "timestamp" | none
  let .str task ← j.getField "task" | none
  let .arr callsJson ← j.getField "tool_calls" | none
  let tool_calls ← traverseOpt parseToolCall callsJson
  let .str result ← j.getField "result" | none
  let .num duration ← j.getField "duration_seconds" | none
  pure { timestamp := timestamp, task := task, tool_calls := tool_calls,
         result := result, duration_seconds := duration }

/-- Modelled from the spec: §3/§4.4 History — an ordered, append-only
sequence of TaskRecords held in their durable serialized form. -/
structure History where
  store : List Json

/-- Modelled from the spec: §4.4 `append(record)` — durably persists one
TaskRecord; append-only, no in-place edit. -/
def History.append (h : History) (r : TaskRecord) : History :=
  ⟨h.store ++ [serializeTask r]⟩

/-- Modelled from the spec: §4.4 `all_records()` — returns the records in
the order appended, read back from the durable form. -/
def History.all_records (h : History) : List TaskRecord :=
  h.store.filterMap parseTask

/-- Modelled from the spec: §2/§6 — an agent: its loop configuration, its
History, and the current clock. -/
structure Agent where
  cfg : LoopConfig
  history : History
  clock : Nat

/-- Modelled from the spec: §6 `run(task) -> string` — runs the execution
loop to completion, persists exactly one TaskRecord via the Trace
Recorder, and returns the final textual result. -/
def Agent.run (a : Agent) (task : String) : String × Agent :=
  let r := runRecord a.cfg task a.clock
  (r.result,
   { a with history := a.history.append r,
            clock := (runState a.cfg task a.clock).clock })

/-! ## Embedded Python sources (present under the visible sources) -/

/-- The character whitelist of `calculate` in `examples/quick_start.py`:
`allowed_chars = "0123456789+-*/(). "`. -/
def allowedChars : List Char := "0123456789+-*/(). ".toList

/-- Embedded from `examples/quick_start.py`, `calculate(expression)`:
inside a `try`, if every character of `expression` is in the whitelist it
returns `eval(expression)`, otherwise it raises
`ValueError("Invalid characters in expression")`; the surrounding `except`
re-raises any exception `e` as `Exception(f"Math error: {str(e)}")`.
Python's `eval` is abstracted as the parameter `ev`. -/
def calculate (ev : String → PyResult ℚ) (expression : String) : PyResult ℚ :=
  let body : PyResult ℚ :=
    if expression.toList.all (fun c => decide (c ∈ allowedChars)) then
      ev expression
    else
      .exc "Invalid characters in expression"
  match body with
  | .ok v => .ok v
  | .exc m => .exc ("Math error: " ++ m)

/-- Python's whitespace test used by `str.strip()`. -/
def pyIsSpace (c : Char) : Bool :=
  c == ' ' || c == '\t' || c == '\n' || c == '\r' || c == '\x0b' || c == '\x0c'

/-- Python's `str.strip()`: remove leading and trailing whitespace.  Lines
are modelled as character lists. -/
def pyStrip (s : List Char) : List Char :=
  ((s.dropWhile pyIsSpace).reverse.dropWhile pyIsSpace).reverse

/-- Python's `str.startswith(p)` on character lists. -/
def pyStartsWith (s p : List Char) : Bool :=
  p.isPrefixOf s

/-- Embedded from `setup.py`:
`[line.strip() for line in fh if line.strip() and not line.startswith("#")]`
— keep the lines whose stripped form is non-empty (truthy) and whose raw
(unstripped) text does not start with `#`, and strip the kept lines. -/
def requirementsOf (lines : List (List Char)) : List (List Char) :=
  (lines.filter (fun line =>
    !(pyStrip line).isEmpty && !(pyStartsWith line ['#']))).map pyStrip

/-! ## Basic lemmas about the loop -/

lemma runSteps_succ (cfg : LoopConfig) (n : Nat) (s : LState) :
    runSteps cfg (n + 1) s = runSteps cfg n (step cfg s) := rfl

lemma step_of_terminal (cfg : LoopConfig) (s : LState)
    (h : s.isTerminal = true) : step cfg s = s := by
  obtain ⟨ph, calls, log, round, clock⟩ := s
  cases ph <;> simp_all [LState.isTerminal, step]

lemma runSteps_of_terminal (cfg : LoopConfig) (n : Nat) (s : LState)
    (h : s.isTerminal = true) : runSteps cfg n s = s := by
  induction n with
  | zero => rfl
  | succ n ih =>
    rw [runSteps_succ, step_of_terminal cfg s h]
    exact ih

lemma step_awaiting_bound (cfg : LoopConfig) (conv : List Message)
    (calls : List ToolCallRecord) (log : List ToolCallRequest) (round clock : Nat)
    (hb : cfg.maxRounds ≤ round) :
    step cfg ⟨.awaitingModel conv, calls, log, round, clock⟩
      = ⟨.failed maxIterationsMsg, calls, log, round, clock⟩ := by
  simp [step, hb]

lemma step_awaiting_final (cfg : LoopConfig) (conv : List Message)
    (calls : List ToolCallRecord) (log : List ToolCallRequest) (round clock : Nat)
    (content : String) (hb : ¬ cfg.maxRounds ≤ round)
    (hgw : cfg.gw conv = .final content) :
    step cfg ⟨.awaitingModel conv, calls, log, round, clock⟩
      = ⟨.done content, calls, log, round, clock + 1⟩ := by
  simp [step, hb, hgw]

lemma step_awaiting_unavailable (cfg : LoopConfig) (conv : List Message)
    (calls : List ToolCallRecord) (log : List ToolCallRequest) (round clock : Nat)
    (msg : String) (hb : ¬ cfg.maxRounds ≤ round)
    (hgw : cfg.gw conv = .unavailable msg) :
    step cfg ⟨.awaitingModel conv, calls, log, round, clock⟩
      = ⟨.failed msg, calls, log, round, clock + 1⟩ := by
  simp [step, hb, hgw]

lemma step_awaiting_tools (cfg : LoopConfig) (conv : List Message)
    (calls : List ToolCallRecord) (log : List ToolCallRequest) (round clock : Nat)
    (reqs : List ToolCallRequest) (hb : ¬ cfg.maxRounds ≤ round)
    (hgw : cfg.gw conv = .toolRequests reqs) :
    step cfg ⟨.awaitingModel conv, calls, log, round, clock⟩
      = ⟨.dispatching reqs conv, calls, log, round + 1, clock + 1⟩ := by
  simp [step, hb, hgw]

lemma step_dispatching (cfg : LoopConfig) (reqs : List ToolCallRequest)
    (conv : List Message) (calls : List ToolCallRecord)
    (log : List ToolCallRequest) (round clock : Nat) :
    step cfg ⟨.dispatching reqs conv, calls, log, round, clock⟩
      = ⟨.awaitingModel (conv ++ Message.assistantToolCalls reqs ::
            (reqs.map (invokeTool cfg.tools)).map
              (fun r => Message.toolResult r.call_id r.result)),
         calls ++ reqs.map (invokeTool cfg.tools), log ++ reqs,
         round, clock⟩ := rfl

lemma invokeTool_call_id (tools : List ToolDef) (req : ToolCallRequest) :
    (invokeTool tools req).call_id = req.call_id := by
  unfold invokeTool
  cases hf : tools.find? (fun t => t.name == req.name) with
  | none => rfl
  | some t => cases hinv : t.invoke req.arguments <;> simp [hinv]

lemma step_calls_eq_log (cfg : LoopConfig) (s : LState)
    (h : s.calls = s.log.map (invokeTool cfg.tools)) :
    (step cfg s).calls = (step cfg s).log.map (invokeTool cfg.tools) := by
  obtain ⟨ph, calls, log, round, clock⟩ := s
  cases ph with
  | awaitingModel conv =>
    by_cases hb : cfg.maxRounds ≤ round
    · rw [step_awaiting_bound cfg conv calls log round clock hb]
      exact h
    · cases hgw : cfg.gw conv with
      | final content =>
        rw [step_awaiting_final cfg conv calls log round clock content hb hgw]
        exact h
      | toolRequests reqs =>
        rw [step_awaiting_tools cfg conv calls log round clock reqs hb hgw]
        exact h
      | unavailable msg =>
        rw [step_awaiting_unavailable cfg conv calls log round clock msg hb hgw]
        exact h
  | dispatching reqs conv =>
    rw [step_dispatching]
    simp only [List.map_append]
    change calls = List.map (invokeTool cfg.tools) log at h
    rw [h]
  | done r => exact h
  | failed r => exact h

lemma runSteps_calls_eq_log (cfg : LoopConfig) (n : Nat) (s : LState)
    (h : s.calls = s.log.map (invokeTool cfg.tools)) :
    (runSteps cfg n s).calls = (runSteps cfg n s).log.map (invokeTool cfg.tools) := by
  induction n generalizing s with
  | zero => exact h
  | succ n ih =>
    rw [runSteps_succ]
    exact ih _ (step_calls_eq_log cfg s h)

lemma step_round_le (cfg : LoopConfig) (s : LState)
    (h : s.round ≤ cfg.maxRounds) : (step cfg s).round ≤ cfg.maxRounds := by
  obtain ⟨ph, calls, log, round, clock⟩ := s
  cases ph with
  | awaitingModel conv =>
    by_cases hb : cfg.maxRounds ≤ round
    · rw [step_awaiting_bound cfg conv calls log round clock hb]
      exact h
    · cases hgw : cfg.gw conv with
      | final content =>
        rw [step_awaiting_final cfg conv calls log round clock content hb hgw]
        exact h
      | toolRequests reqs =>
        rw [step_awaiting_tools cfg conv calls log round clock reqs hb hgw]
        show round + 1 ≤ cfg.maxRounds
        omega
      | unavailable msg =>
        rw [step_awaiting_unavailable cfg conv calls log round clock msg hb hgw]
        exact h
  | dispatching reqs conv =>
    rw [step_dispatching]
    exact h
  | done r => exact h
  | failed r => exact h

lemma runSteps_round_le (cfg : LoopConfig) (n : Nat) (s : LState)
    (h : s.round ≤ cfg.maxRounds) : (runSteps cfg n s).round ≤ cfg.maxRounds := by
  induction n generalizing s with
  | zero => exact h
  | succ n ih =>
    rw [runSteps_succ]
    exact ih _ (step_round_le cfg s h)

/-! ## Termination of the loop -/

lemma runSteps_terminal_from_awaiting (cfg : LoopConfig) (n : Nat) :
    ∀ (conv : List Message) (calls : List ToolCallRecord)
      (log : List ToolCallRequest) (round clock : Nat),
      cfg.maxRounds - round ≤ n →
      (runSteps cfg (2 * n + 1)
        ⟨.awaitingModel conv, calls, log, round, clock⟩).isTerminal = true := by
  induction n with
  | zero =>
    intro conv calls log round clock hle
    have hb : cfg.maxRounds ≤ round := by omega
    rw [show 2 * 0 + 1 = 0 + 1 by ring, runSteps_succ]
    simp [step, hb, runSteps, LState.isTerminal]
  | succ n ih =>
    intro conv calls log round clock hle
    by_cases hb : cfg.maxRounds ≤ round
    · have h1 : (step cfg ⟨.awaitingModel conv, calls, log, round, clock⟩).isTerminal
          = true := by
        simp [step, hb, LState.isTerminal]
      rw [show 2 * (n + 1) + 1 = (2 * n + 2) + 1 by ring, runSteps_succ,
        runSteps_of_terminal _ _ _ h1]
      exact h1
    · rw [show 2 * (n + 1) + 1 = (2 * n + 1) + 1 + 1 by ring, runSteps_succ,
        runSteps_succ]
      cases hgw : cfg.gw conv with
      | final content =>
        have h1 : (step cfg ⟨.awaitingModel conv, calls, log, round, clock⟩).isTerminal
            = true := by
          simp [step, hb, hgw, LState.isTerminal]
        rw [step_of_terminal _ _ h1, runSteps_of_terminal _ _ _ h1]
        exact h1
      | unavailable msg =>
        have h1 : (step cfg ⟨.awaitingModel conv, calls, log, round, clock⟩).isTerminal
            = true := by
          simp [step, hb, hgw, LState.isTerminal]
        rw [step_of_terminal _ _ h1, runSteps_of_terminal _ _ _ h1]
        exact h1
      | toolRequests reqs =>
        have hs1 : step cfg ⟨.awaitingModel conv, calls, log, round, clock⟩
            = ⟨.dispatching reqs conv, calls, log, round + 1, clock + 1⟩ := by
          simp [step, hb, hgw]
        rw [hs1]
        have hs2 : step cfg ⟨.dispatching reqs conv, calls, log, round + 1, clock + 1⟩
            = ⟨.awaitingModel (conv ++ Message.assistantToolCalls reqs ::
                  (reqs.map (invokeTool cfg.tools)).map
                    (fun r => Message.toolResult r.call_id r.result)),
               calls ++ reqs.map (invokeTool cfg.tools), log ++ reqs,
               round + 1, clock + 1⟩ := rfl
        rw [hs2]
        exact ih _ _ _ _ _ (by omega)

lemma runState_isTerminal (cfg : LoopConfig) (task : String) (clock0 : Nat) :
    (runState cfg task clock0).isTerminal = true := by
  exact runSteps_terminal_from_awaiting cfg cfg.maxRounds _ _ _ _ _ (by omega)

lemma runSteps_failed_from_awaiting (cfg : LoopConfig)
    (hg : ∀ conv, ∃ reqs, cfg.gw conv = .toolRequests reqs) (n : Nat) :
    ∀ (conv : List Message) (calls : List ToolCallRecord)
      (log : List ToolCallRequest) (round clock : Nat),
      cfg.maxRounds - round ≤ n →
      (runSteps cfg (2 * n + 1)
        ⟨.awaitingModel conv, calls, log, round, clock⟩).phase
        = .failed maxIterationsMsg := by
  induction n with
  | zero =>
    intro conv calls log round clock hle
    have hb : cfg.maxRounds ≤ round := by omega
    rw [show 2 * 0 + 1 = 0 + 1 by ring, runSteps_succ,
      step_awaiting_bound cfg conv calls log round clock hb]
    rfl
  | succ n ih =>
    intro conv calls log round clock hle
    by_cases hb : cfg.maxRounds ≤ round
    · have h1 : (LState.mk (.failed maxIterationsMsg) calls log round clock).isTerminal
          = true := rfl
      rw [show 2 * (n + 1) + 1 = (2 * n + 2) + 1 by ring, runSteps_succ,
        step_awaiting_bound cfg conv calls log round clock hb,
        runSteps_of_terminal _ _ _ h1]
    · obtain ⟨reqs, hgw⟩ := hg conv
      rw [show 2 * (n + 1) + 1 = (2 * n + 1) + 1 + 1 by ring, runSteps_succ,
        runSteps_succ, step_awaiting_tools cfg conv calls log round clock reqs hb hgw,
        step_dispatching]
      exact ih _ _ _ _ _ (by omega)

lemma runState_of_first_step_terminal (cfg : LoopConfig) (task : String)
    (clock0 : Nat)
    (h : (step cfg (initState cfg task clock0)).isTerminal = true) :
    runState cfg task clock0 = step cfg (initState cfg task clock0) := by
  rw [runState, runSteps_succ]
  exact runSteps_of_terminal _ _ _ h

/-! ## Round-trip of the storage format -/

lemma parseArgs_serializeArgs (args : List (String × String)) :
    parseArgs (serializeArgs args) = some args := by
  induction args with
  | nil => rfl
  | cons a t ih =>
    simp only [serializeArgs, parseArgs, List.map_cons, traverseOpt] at ih ⊢
    simp only [ih]
    rfl

lemma parseToolCall_serializeToolCall (c : ToolCallRecord) :
    parseToolCall (serializeToolCall c) = some c := by
  obtain ⟨name, arguments, call_id, result, status⟩ := c
  cases status <;>
    simp [parseToolCall, serializeToolCall, Json.getField, List.find?,
      parseArgs_serializeArgs, Status.toStr, Status.ofStr]

lemma traverseOpt_parseToolCall_serialize (l : List ToolCallRecord) :
    traverseOpt parseToolCall (l.map serializeToolCall) = some l := by
  induction l with
  | nil => rfl
  | cons c t ih =>
    simp [traverseOpt, parseToolCall_serializeToolCall, ih]

lemma parseTask_serializeTask (r : TaskRecord) :
    parseTask (serializeTask r) = some r := by
  obtain ⟨timestamp, task, tool_calls, result, duration⟩ := r
  simp [parseTask, serializeTask, Json.getField, List.find?,
    traverseOpt_parseToolCall_serialize]

lemma all_records_append (h : History) (r : TaskRecord) :
    (h.append r).all_records = h.all_records ++ [r] := by
  simp [History.append, History.all_records, List.filterMap_append,
    parseTask_serializeTask]

/-! ## Claim theorems -/

/-- C1: `run(task)` always returns a string — it is a total function, so no
recoverable failure (tool error, model unavailability, exceeded round
bound) escapes it — and exactly one TaskRecord is appended to the agent's
History per invocation, whether the task ends in Done or Failed. -/
theorem run_returns_string_and_appends_one_record (a : Agent) (task : String) :
    (a.run task).1 = (runRecord a.cfg task a.clock).result ∧
    (a.run task).2.history.all_records
      = a.history.all_records ++ [runRecord a.cfg task a.clock] ∧
    (a.run task).2.history.all_records.length
      = a.history.all_records.length + 1 := by
  refine ⟨rfl, all_records_append a.history (runRecord a.cfg task a.clock), ?_⟩
  have h : (a.run task).2.history = a.history.append (runRecord a.cfg task a.clock) := rfl
  rw [h, all_records_append]
  simp

/-- C2: the persisted TaskRecord's `tool_calls` is exactly the image, under
tool invocation, of the log of tool requests processed across all rounds,
in execution order (one ToolCallRecord per executed invocation, including
error-status ones); in particular its length equals the total number of
tool requests processed. -/
theorem tool_calls_match_executed_invocations (cfg : LoopConfig)
    (task : String) (clock0 : Nat) :
    (runRecord cfg task clock0).tool_calls
      = (runState cfg task clock0).log.map (invokeTool cfg.tools) ∧
    (runRecord cfg task clock0).tool_calls.length
      = (runState cfg task clock0).log.length := by
  have h : (runState cfg task clock0).calls
      = (runState cfg task clock0).log.map (invokeTool cfg.tools) :=
    runSteps_calls_eq_log cfg (2 * cfg.maxRounds + 1)
      (initState cfg task clock0) rfl
  refine ⟨h, ?_⟩
  show (runState cfg task clock0).calls.length
      = (runState cfg task clock0).log.length
  rw [h]
  simp

/-- C6: appending a TaskRecord to the History makes it the last element of
`all_records()`, and the previously appended records are still present, in
their original order, unchanged. -/
theorem history_append_is_lossless (h : History) (r : TaskRecord) :
    (h.append r).all_records = h.all_records ++ [r] ∧
    (h.append r).all_records.getLast? = some r := by
  refine ⟨all_records_append h r, ?_⟩
  rw [all_records_append h r]
  exact List.getLast?_concat _

/-- C8: every TaskRecord serializes as a mapping with exactly the keys
`timestamp, task, tool_calls, result, duration_seconds`, every tool-call
entry as a mapping with exactly the keys
`name, arguments, call_id, result, status`, and the shape round-trips
losslessly through the persistence format. -/
theorem task_record_storage_shape (r : TaskRecord) (c : ToolCallRecord) :
    (serializeTask r).keys
      = ["timestamp", "task", "tool_calls", "result", "duration_seconds"] ∧
    (serializeToolCall c).keys
      = ["name", "arguments", "call_id", "result", "status"] ∧
    (serializeTask r).getField "tool_calls"
      = some (.arr (r.tool_calls.map serializeToolCall)) ∧
    parseTask (serializeTask r) = some r := by
  refine ⟨rfl, rfl, ?_, parseTask_serializeTask r⟩
  simp [serializeTask, Json.getField, List.find?]

/-- C3: a failing tool invocation never makes the loop transition to
Failed: dispatching a batch whose `i`-th request fails still records the
error-status ToolCallRecord at its position in `tool_calls`, appends the
error as a tool result (tagged with the same call_id) to the conversation,
and returns to the `AwaitingModel` state. -/
theorem tool_failure_returns_to_awaitingModel (cfg : LoopConfig)
    (reqs : List ToolCallRequest) (conv : List Message)
    (calls : List ToolCallRecord) (log : List ToolCallRequest)
    (round clock : Nat) (i : Nat) (hi : i < reqs.length)
    (herr : (invokeTool cfg.tools (reqs.get ⟨i, hi⟩)).status = .error) :
    (∃ conv2,
      (step cfg ⟨.dispatching reqs conv, calls, log, round, clock⟩).phase
        = .awaitingModel conv2 ∧
      Message.toolResult (reqs.get ⟨i, hi⟩).call_id
          (invokeTool cfg.tools (reqs.get ⟨i, hi⟩)).result ∈ conv2) ∧
    (step cfg ⟨.dispatching reqs conv, calls, log, round, clock⟩).calls.get?
        (calls.length + i)
      = some (invokeTool cfg.tools (reqs.get ⟨i, hi⟩)) := by
  rw [step_dispatching]
  constructor
  · refine ⟨_, rfl, ?_⟩
    apply List.mem_append_right
    apply List.mem_cons_of_mem
    rw [← invokeTool_call_id cfg.tools (reqs.get ⟨i, hi⟩)]
    exact List.mem_map_of_mem (fun r => Message.toolResult r.call_id r.result)
      (List.mem_map_of_mem (invokeTool cfg.tools) (List.get_mem reqs i hi))
  · show (calls ++ reqs.map (invokeTool cfg.tools)).get? (calls.length + i)
      = some (invokeTool cfg.tools (reqs.get ⟨i, hi⟩))
    rw [List.get?_append_right (Nat.le_add_right _ _)]
    have h2 : calls.length + i - calls.length = i := by omega
    rw [h2, List.get?_map, List.get?_eq_get hi]
    rfl

/-- Witness for C3 at a concrete failing invocation: dispatching a request
for an unregistered tool. -/
theorem tool_failure_returns_to_awaitingModel_witness :
    (0 : Nat) < 1 ∧
    (invokeTool ([] : List ToolDef)
      (List.get [ToolCallRequest.mk "id1" "nope" []] ⟨0, by decide⟩)).status
        = .error ∧
    ((∃ conv2,
      (step ⟨fun _ => .final "ok", [], "sys", 3⟩
        ⟨.dispatching [ToolCallRequest.mk "id1" "nope" []] [], [], [], 0, 0⟩).phase
        = .awaitingModel conv2 ∧
      Message.toolResult
          (List.get [ToolCallRequest.mk "id1" "nope" []] ⟨0, by decide⟩).call_id
          (invokeTool ([] : List ToolDef)
            (List.get [ToolCallRequest.mk "id1" "nope" []] ⟨0, by decide⟩)).result
        ∈ conv2) ∧
    (step ⟨fun _ => .final "ok", [], "sys", 3⟩
        ⟨.dispatching [ToolCallRequest.mk "id1" "nope" []] [], [], [], 0, 0⟩).calls.get?
        (List.length ([] : List ToolCallRecord) + 0)
      = some (invokeTool ([] : List ToolDef)
          (List.get [ToolCallRequest.mk "id1" "nope" []] ⟨0, by decide⟩))) :=
  ⟨by decide, by decide,
    tool_failure_returns_to_awaitingModel ⟨fun _ => .final "ok", [], "sys", 3⟩
      [ToolCallRequest.mk "id1" "nope" []] [] [] [] 0 0 0 (by decide) (by decide)⟩

/-- C4: the execution loop always terminates — after `2 * maxRounds + 1`
transitions the state is Done or Failed — the number of completed
AwaitingModel→DispatchingTools cycles never exceeds the configured bound,
and a model that keeps requesting tools without converging forces the
`Failed` state with the descriptive "max iterations exceeded" result. -/
theorem loop_bounded_and_terminates (cfg : LoopConfig) (task : String)
    (clock0 : Nat) :
    (runState cfg task clock0).isTerminal = true ∧
    (runState cfg task clock0).round ≤ cfg.maxRounds ∧
    ((∀ conv, ∃ reqs, cfg.gw conv = .toolRequests reqs) →
      (runState cfg task clock0).phase = .failed maxIterationsMsg) := by
  refine ⟨runState_isTerminal cfg task clock0, ?_, ?_⟩
  · exact runSteps_round_le cfg _ _ (Nat.zero_le _)
  · intro hg
    exact runSteps_failed_from_awaiting cfg hg cfg.maxRounds _ _ _ _ _ (by omega)

/-- Witness for C4 at a concrete non-converging model. -/
theorem loop_bounded_and_terminates_witness :
    (runState ⟨fun _ => .toolRequests [], [], "sys", 2⟩ "task" 0).phase
      = .failed maxIterationsMsg :=
  (loop_bounded_and_terminates ⟨fun _ => .toolRequests [], [], "sys", 2⟩
    "task" 0).2.2 (fun _ => ⟨[], rfl⟩)

/-- C5: when the Model Gateway reports `ModelUnavailableError` on the first
round, the task still persists a TaskRecord with empty `tool_calls`, the
failure description as `result`, and `duration_seconds` strictly positive;
`duration_seconds = 1` gateway tick shows the core made exactly one gateway
call, i.e. it did not retry. -/
theorem model_unavailable_first_round (cfg : LoopConfig) (task : String)
    (clock0 : Nat) (msg : String) (hpos : 0 < cfg.maxRounds)
    (hgw : cfg.gw (initConv cfg task) = .unavailable msg) :
    (runRecord cfg task clock0).tool_calls = [] ∧
    (runRecord cfg task clock0).result = msg ∧
    0 < (runRecord cfg task clock0).duration_seconds ∧
    (runRecord cfg task clock0).duration_seconds = 1 := by
  have hb : ¬ cfg.maxRounds ≤ 0 := by omega
  have hstep : step cfg (initState cfg task clock0)
      = ⟨.failed msg, [], [], 0, clock0 + 1⟩ :=
    step_awaiting_unavailable cfg (initConv cfg task) [] [] 0 clock0 msg hb hgw
  have hterm : (step cfg (initState cfg task clock0)).isTerminal = true := by
    rw [hstep]
    rfl
  have hrun : runState cfg task clock0 = ⟨.failed msg, [], [], 0, clock0 + 1⟩ := by
    rw [runState_of_first_step_terminal cfg task clock0 hterm, hstep]
  refine ⟨?_, ?_, ?_, ?_⟩ <;> simp [runRecord, hrun, Phase.resultOf]

/-- Witness for C5 at a concrete unavailable gateway. -/
theorem model_unavailable_first_round_witness :
    (runRecord ⟨fun _ => .unavailable "backend unreachable", [], "sys", 10⟩
        "hello" 5).tool_calls = [] ∧
    (runRecord ⟨fun _ => .unavailable "backend unreachable", [], "sys", 10⟩
        "hello" 5).result = "backend unreachable" ∧
    0 < (runRecord ⟨fun _ => .unavailable "backend unreachable", [], "sys", 10⟩
        "hello" 5).duration_seconds ∧
    (runRecord ⟨fun _ => .unavailable "backend unreachable", [], "sys", 10⟩
        "hello" 5).duration_seconds = 1 :=
  model_unavailable_first_round
    ⟨fun _ => .unavailable "backend unreachable", [], "sys", 10⟩
    "hello" 5 "backend unreachable" (by decide) rfl

/-- C7: when the model's first response is a final answer (no tool
requests), the persisted TaskRecord has empty `tool_calls` and its
`result` equals the model's final text exactly. -/
theorem final_answer_without_tools (cfg : LoopConfig) (task : String)
    (clock0 : Nat) (content : String) (hpos : 0 < cfg.maxRounds)
    (hgw : cfg.gw (initConv cfg task) = .final content) :
    (runRecord cfg task clock0).tool_calls = [] ∧
    (runRecord cfg task clock0).result = content := by
  have hb : ¬ cfg.maxRounds ≤ 0 := by omega
  have hstep : step cfg (initState cfg task clock0)
      = ⟨.done content, [], [], 0, clock0 + 1⟩ :=
    step_awaiting_final cfg (initConv cfg task) [] [] 0 clock0 content hb hgw
  have hterm : (step cfg (initState cfg task clock0)).isTerminal = true := by
    rw [hstep]
    rfl
  have hrun : runState cfg task clock0 = ⟨.done content, [], [], 0, clock0 + 1⟩ := by
    rw [runState_of_first_step_terminal cfg task clock0 hterm, hstep]
  constructor <;> simp [runRecord, hrun, Phase.resultOf]

/-- Witness for C7 at a concrete final-answer gateway. -/
theorem final_answer_without_tools_witness :
    (runRecord ⟨fun _ => .final "Hi there", [], "sys", 10⟩ "greet" 0).tool_calls
      = [] ∧
    (runRecord ⟨fun _ => .final "Hi there", [], "sys", 10⟩ "greet" 0).result
      = "Hi there" :=
  final_answer_without_tools ⟨fun _ => .final "Hi there", [], "sys", 10⟩
    "greet" 0 "Hi there" (by decide) rfl

/-- C9: if the expression contains any character outside
`"0123456789+-*/(). "`, `calculate` raises exactly
`"Math error: Invalid characters in expression"` without evaluating the
expression (the outcome does not depend on the evaluator `ev` at all, which
is universally quantified); and every exception `calculate` raises has a
message of the form `"Math error: " ++ rest`, so no underlying exception
escapes unwrapped. -/
theorem calculate_wraps_all_errors (ev : String → PyResult ℚ)
    (expression : String) :
    ((∃ c ∈ expression.toList, c ∉ allowedChars) →
      calculate ev expression
        = .exc "Math error: Invalid characters in expression") ∧
    (∀ m, calculate ev expression = .exc m →
      ∃ rest, m = "Math error: " ++ rest) := by
  constructor
  · rintro ⟨c, hc, hnc⟩
    have hall : expression.toList.all (fun ch => decide (ch ∈ allowedChars))
        = false := by
      rw [Bool.eq_false_iff]
      intro htrue
      rw [List.all_eq_true] at htrue
      have hcmem := htrue c hc
      simp only [decide_eq_true_eq] at hcmem
      exact hnc hcmem
    have hneg : ¬ ((expression.toList.all
        (fun ch => decide (ch ∈ allowedChars))) = true) := by
      rw [hall]
      exact Bool.false_ne_true
    rw [calculate, if_neg hneg]
    rfl
  · intro m hm
    by_cases hall : expression.toList.all (fun ch => decide (ch ∈ allowedChars))
        = true
    · rw [calculate, if_pos hall] at hm
      cases hev : ev expression with
      | ok v => rw [hev] at hm; exact absurd hm (by simp)
      | exc m0 =>
        rw [hev] at hm
        exact ⟨m0, (PyResult.exc.injEq _ _ ▸ hm).symm ▸ rfl⟩
    · rw [calculate, if_neg hall] at hm
      exact ⟨"Invalid characters in expression", by
        simpa using hm.symm⟩

/-- Witness for C9: a disallowed character, and a wrapped evaluator
exception. -/
theorem calculate_wraps_all_errors_witness :
    calculate (fun _ => .ok 0) "2^3"
      = .exc "Math error: Invalid characters in expression" ∧
    (∃ rest, "Math error: division by zero" = "Math error: " ++ rest) :=
  ⟨(calculate_wraps_all_errors (fun _ => .ok 0) "2^3").1
      ⟨'^', by decide, by decide⟩,
    (calculate_wraps_all_errors (fun _ => .exc "division by zero") "1/0").2
      "Math error: division by zero" (by decide)⟩

lemma requirementsOf_eq_filterMap (lines : List (List Char)) :
    requirementsOf lines
      = lines.filterMap (fun line =>
          if !(pyStrip line).isEmpty && !(pyStartsWith line ['#']) then
            some (pyStrip line)
          else none) := by
  induction lines with
  | nil => rfl
  | cons l t ih =>
    by_cases hc : (!(pyStrip l).isEmpty && !(pyStartsWith l ['#'])) = true
    · simp only [requirementsOf, List.filter_cons, hc, if_true, List.map_cons,
        List.filterMap_cons] at ih ⊢
      rw [ih]
    · rw [Bool.not_eq_true] at hc
      simp only [requirementsOf, List.filter_cons, hc, Bool.false_eq_true,
        if_false, List.filterMap_cons] at ih ⊢
      rw [ih]

/-- C10: the `install_requires` list computed by `setup.py` consists of
exactly the stripped lines of `requirements.txt` that are non-blank and
whose raw (unstripped) text does not begin with `#`; consequently a
comment line indented by leading whitespace is included (stripped) as a
requirement rather than filtered out. -/
theorem setup_requirements_include_indented_comment (lines : List (List Char)) :
    requirementsOf lines
      = lines.filterMap (fun line =>
          if !(pyStrip line).isEmpty && !(pyStartsWith line ['#']) then
            some (pyStrip line)
          else none) ∧
    requirementsOf ["openai>=1.0".toList, "   # pinned for CI".toList,
        "# comment".toList, "   ".toList, "requests".toList]
      = ["openai>=1.0".toList, "# pinned for CI".toList, "requests".toList] := by
  refine ⟨requirementsOf_eq_filterMap lines, ?_⟩
  rfl

end ConnectOnion
